import Mathlib

/-!
A verification development for the deterministic parsing and classification
core of `src/pdf-extractor.js` (class `BankStatementExtractor`).

The JavaScript source is shallowly embedded over `List Char`:
  - each regular expression of the source is implemented as a dedicated
    matcher that reproduces the JavaScript engine's behaviour (leftmost
    match, lazy `(.+?)`, greedy quantifiers with backtracking, `lastIndex`
    advancement for global matching);
  - `String.prototype` operations (`includes`, `substring`, `replace`,
    `trim`, `split`, `toUpperCase`) are implemented over `List Char`;
  - JavaScript `null` becomes `Option`, JavaScript truthiness of a
    string-or-null field is `jsTruthy`, and the one place the code can
    throw (a method call on `null`) is modelled with `Except`.
-/

namespace PdfExtractor

/-- Strings are modelled as lists of characters. -/
abbrev Str := List Char

/-- Coercion from a Lean string literal to the model's string type. -/
def strL (s : String) : Str := s.data

/-- JavaScript `\d`. -/
def isDigitCh (c : Char) : Bool := ('0' ≤ c) && (c ≤ '9')

/-- JavaScript `\s` (the ASCII part, which is all the source's data uses):
space, tab, line feed, carriage return, vertical tab, form feed. -/
def isWsCh (c : Char) : Bool :=
  (c == ' ') || (c == '\t') || (c == '\n') || (c == '\r') || (c == '\x0b') || (c == '\x0c')

/-- `String.prototype.toUpperCase`, restricted to the Basic Latin and
Latin-1 letters that occur in the source's keyword tables and data
(the German sharp s, whose uppercase is the two-letter `SS`, is left
unchanged; it occurs nowhere in the tables). -/
def jsToUpper (c : Char) : Char :=
  if ('a' ≤ c) && (c ≤ 'z') then Char.ofNat (c.toNat - 32)
  else if c == 'ÿ' then 'Ÿ'
  else if ('à' ≤ c) && (c ≤ 'þ') && (c != '÷') && (c != 'ß') then Char.ofNat (c.toNat - 32)
  else c

/-- Uppercase a whole string. -/
def upList (l : Str) : Str := l.map jsToUpper

/-- `needle` is a prefix of `hay`. -/
def prefixAt : Str → Str → Bool
  | [], _ => true
  | _ :: _, [] => false
  | n :: ns, h :: hs => (n == h) && prefixAt ns hs

/-- JavaScript `hay.includes(needle)`. -/
def containsSub (hay needle : Str) : Bool :=
  hay.tails.any (fun t => prefixAt needle t)

/-- Case-insensitive prefix test (both sides uppercased, as the `i` flag does). -/
def prefixAtCI (needle hay : Str) : Bool :=
  prefixAt (upList needle) (upList hay)

/-- Find the first case-insensitive occurrence of `needle` in `hay`;
return the rest of `hay` after the end of that occurrence. -/
def findSubCI : Str → Str → Option Str
  | [], needle => if needle.isEmpty then some [] else none
  | h :: t, needle =>
    if prefixAtCI needle (h :: t) then some ((h :: t).drop needle.length)
    else findSubCI t needle

/-- JavaScript `hay.replace(needle, '')` for a plain-string `needle`:
remove the first occurrence only. -/
def replaceFirst : Str → Str → Str
  | [], _ => []
  | h :: t, needle =>
    if prefixAt needle (h :: t) then (h :: t).drop needle.length
    else h :: replaceFirst t needle

/-- Remove leading whitespace. -/
def trimL : Str → Str
  | [] => []
  | h :: t => if isWsCh h then trimL t else h :: t

/-- JavaScript `String.prototype.trim`. -/
def trim (l : Str) : Str := trimL ((trimL l.reverse).reverse)

/-- JavaScript `s.replace(/\s+/g, ' ')` — collapse every whitespace run
to a single space.  The flag records whether the previous character was
part of a run already emitted. -/
def collapseWsGo : Bool → Str → Str
  | _, [] => []
  | prevWs, h :: t =>
    if isWsCh h then
      (if prevWs then collapseWsGo true t else ' ' :: collapseWsGo true t)
    else h :: collapseWsGo false t

/-- JavaScript `s.replace(/\s+/g, ' ')`. -/
def collapseWs (l : Str) : Str := collapseWsGo false l

/-- JavaScript `s.replace(/\s/g, '')` — drop every whitespace character. -/
def removeWs (l : Str) : Str := l.filter (fun c => !isWsCh c)

/-- JavaScript `text.split('\n')` (keeps empty pieces; `''` gives `['']`). -/
def splitNl : Str → List Str
  | [] => [[]]
  | h :: t =>
    if h == '\n' then [] :: splitNl t
    else
      match splitNl t with
      | [] => [[h]]
      | x :: xs => (h :: x) :: xs

mutual
/-- Inside a token of `split(/\s+/)`: `cur` is the token read so far, reversed. -/
def splitWsGo (cur : Str) : Str → List Str
  | [] => [cur.reverse]
  | h :: t => if isWsCh h then cur.reverse :: splitWsSkip t else splitWsGo (h :: cur) t

/-- Inside a whitespace separator run of `split(/\s+/)`. -/
def splitWsSkip : Str → List Str
  | [] => [[]]
  | h :: t => if isWsCh h then splitWsSkip t else splitWsGo [h] t
end

/-- JavaScript `s.split(/\s+/)` (leading/trailing separators yield empty
tokens, exactly as the regex-split does). -/
def splitWsRuns (l : Str) : List Str := splitWsGo [] l

/-- JavaScript truthiness of a string-or-null value. -/
def jsTruthy : Option Str → Bool
  | none => false
  | some s => !s.isEmpty

/-- The shape `\d{2}\/\d{2}\/\d{4}` on exactly ten characters. -/
def dateShape (l : Str) : Bool :=
  match l with
  | [a, b, c, d, e, f, g, h, i, j] =>
    isDigitCh a && isDigitCh b && (c == '/') && isDigitCh d && isDigitCh e &&
    (f == '/') && isDigitCh g && isDigitCh h && isDigitCh i && isDigitCh j
  | _ => false

/-- Match `\d{2}\/\d{2}\/\d{4}` at the head of `l`; on success return the
ten matched characters and the rest. -/
def matchDateAt (l : Str) : Option (Str × Str) :=
  if dateShape (l.take 10) then some (l.take 10, l.drop 10) else none

/-- `\s+` at the head of `l` (greedy, at least one character). -/
def wsRun1 (l : Str) : Option (Str × Str) :=
  match l with
  | h :: _ => if isWsCh h then some (l.takeWhile isWsCh, l.dropWhile isWsCh) else none
  | [] => none

/-- The continuation `(?:\s?\d{3})*,\d{2}` of the strict amount grammar,
with the JavaScript engine's preference order: another iteration with the
optional whitespace, then without it, then the exit into `,\d{2}`.
Returns the number of characters consumed. -/
def amtTailOpt : Nat → Str → Option Nat
  | 0, _ => none
  | fuel + 1, l =>
    (match l with
     | c :: d1 :: d2 :: d3 :: rest =>
       if isWsCh c && isDigitCh d1 && isDigitCh d2 && isDigitCh d3 then
         (amtTailOpt fuel rest).map (fun n => n + 4)
       else none
     | _ => none) <|>
    (match l with
     | d1 :: d2 :: d3 :: rest =>
       if isDigitCh d1 && isDigitCh d2 && isDigitCh d3 then
         (amtTailOpt fuel rest).map (fun n => n + 3)
       else none
     | _ => none) <|>
    (match l with
     | c :: e1 :: e2 :: _ =>
       if (c == ',') && isDigitCh e1 && isDigitCh e2 then some 3 else none
     | _ => none)

/-- The continuation `(?:\s\d{3})*,\d{2}` (mandatory whitespace variant,
used by the line-oriented patterns). -/
def amtTailMand : Nat → Str → Option Nat
  | 0, _ => none
  | fuel + 1, l =>
    (match l with
     | c :: d1 :: d2 :: d3 :: rest =>
       if isWsCh c && isDigitCh d1 && isDigitCh d2 && isDigitCh d3 then
         (amtTailMand fuel rest).map (fun n => n + 4)
       else none
     | _ => none) <|>
    (match l with
     | c :: e1 :: e2 :: _ =>
       if (c == ',') && isDigitCh e1 && isDigitCh e2 then some 3 else none
     | _ => none)

/-- The head `\d{1,3}` (greedy: three digits down to one) followed by the
given continuation. -/
def amtHeadTry (tail : Nat → Str → Option Nat) (l : Str) : Nat → Option Nat
  | 0 => none
  | n + 1 =>
    match tail l.length (l.drop (n + 1)) with
    | some m => some (n + 1 + m)
    | none => amtHeadTry tail l n

/-- `\d{1,3}(?:\s?\d{3})*,\d{2}` at the head of `l` (length consumed). -/
def amtAlt1Opt (l : Str) : Option Nat :=
  let k := (l.takeWhile isDigitCh).length
  if k == 0 then none else amtHeadTry amtTailOpt l (min k 3)

/-- `\d{1,3}(?:\s\d{3})*,\d{2}` at the head of `l` (length consumed). -/
def amtAlt1Mand (l : Str) : Option Nat :=
  let k := (l.takeWhile isDigitCh).length
  if k == 0 then none else amtHeadTry amtTailMand l (min k 3)

/-- `\d+,\d{2}` at the head of `l`.  The digit run is maximal: shortening
it by backtracking leaves a digit where the comma is required, so the
maximal run is the only candidate. -/
def amtAlt2 (l : Str) : Option Nat :=
  let ds := l.takeWhile isDigitCh
  if ds.length == 0 then none
  else
    match l.drop ds.length with
    | c :: e1 :: e2 :: _ =>
      if (c == ',') && isDigitCh e1 && isDigitCh e2 then some (ds.length + 3) else none
    | _ => none

/-- Bare `\d+` at the head of `l` (third alternative of the line parser's
amount pattern). -/
def amtAlt3 (l : Str) : Option Nat :=
  let ds := l.takeWhile isDigitCh
  if ds.length == 0 then none else some ds.length

/-- The amount grammar of regex patterns 1 and 3:
`\d{1,3}(?:\s?\d{3})*,\d{2}|\d+,\d{2}`. -/
def amtA (l : Str) : Option Nat := amtAlt1Opt l <|> amtAlt2 l

/-- The amount grammar of regex pattern 2: `\d[\d\s]*,\d{2}`.  The
character class run is maximal: a comma is outside the class, so
backtracking inside the run can never reach one. -/
def amtB (l : Str) : Option Nat :=
  match l with
  | c :: rest =>
    if isDigitCh c then
      let run := rest.takeWhile (fun x => isDigitCh x || isWsCh x)
      match rest.drop run.length with
      | k :: e1 :: e2 :: _ =>
        if (k == ',') && isDigitCh e1 && isDigitCh e2 then some (1 + run.length + 3) else none
      | _ => none
    else none
  | [] => none

/-- The amount grammar used by the line-by-line scan's tests (source lines
190 and 218): `\d{1,3}(?:\s\d{3})*,\d{2}|\d+,\d{2}`. -/
def amtLBL (l : Str) : Option Nat := amtAlt1Mand l <|> amtAlt2 l

/-- The amount grammar of `parseTransactionLine` (source line 252):
`\d{1,3}(?:\s\d{3})*,\d{2}|\d+,\d{2}|\d+`. -/
def amtFull (l : Str) : Option Nat := amtAlt1Mand l <|> amtAlt2 l <|> amtAlt3 l

/-- `regex.test(text)`: the head matcher succeeds at some position. -/
def testSomewhere (m : Str → Option Nat) (l : Str) : Bool :=
  l.tails.any (fun t => (m t).isSome)

/-- Global matching (`String.prototype.match` with the `g` flag): collect
the leftmost matches, each search resuming at the previous match's end. -/
def scanLens (m : Str → Option Nat) : Nat → Str → List Str
  | 0, _ => []
  | _, [] => []
  | fuel + 1, l =>
    match m l with
    | some n => l.take n :: scanLens m fuel (l.drop n)
    | none => scanLens m fuel l.tail

/-- All matches of `/(\d{2}\/\d{2}\/\d{4})/g` in `l`. -/
def scanDates (l : Str) : List Str :=
  scanLens (fun t => if dateShape (t.take 10) then some 10 else none) (l.length + 1) l

/-- All matches of the line parser's amount pattern (global). -/
def scanAmountsFull (l : Str) : List Str := scanLens amtFull (l.length + 1) l

/-- One raw capture of a transaction regex: the whole matched text
(`match[0]`), the two date groups, the description group and the amount
group. -/
structure RawMatch where
  full : Str
  date : Str
  valeur : Str
  nature : Str
  amount : Str
deriving Repr, DecidableEq

/-- The tail `(.+?)\s+(amount)` common to the three transaction patterns.
`(.+?)` is lazy and `.` does not cross line terminators, so the first
(shortest) description for which mandatory whitespace followed by the
amount grammar succeeds wins; the whitespace run is maximal because every
amount alternative begins with a digit, so backtracking `\s+` to a
shorter run always fails.  Returns (description, whitespace, amount, rest). -/
def lazyNatAmt (amt : Str → Option Nat) (pre : Str) : Str → Option (Str × Str × Str × Str)
  | [] => none
  | c :: rest =>
    if (c == '\n') || (c == '\r') then none
    else
      let nat := pre ++ [c]
      match wsRun1 rest with
      | some (ws, r2) =>
        (match amt r2 with
         | some n => some (nat, ws, r2.take n, r2.drop n)
         | none => lazyNatAmt amt nat rest)
      | none => lazyNatAmt amt nat rest

/-- Pattern 1 (source line 69) at the head of `l`:
`(\d{2}\/\d{2}\/\d{4})\s+(\d{2}\/\d{2}\/\d{4})\s+(.+?)\s+(\d{1,3}(?:\s?\d{3})*,\d{2}|\d+,\d{2})`. -/
def matchP1At (l : Str) : Option (RawMatch × Str) := do
  let (d1, r1) ← matchDateAt l
  let (w1, r2) ← wsRun1 r1
  let (d2, r3) ← matchDateAt r2
  let (w2, r4) ← wsRun1 r3
  let (nat, wm, am, rest) ← lazyNatAmt amtA [] r4
  some ({ full := d1 ++ w1 ++ d2 ++ w2 ++ nat ++ wm ++ am,
          date := d1, valeur := d2, nature := nat, amount := am }, rest)

/-- Pattern 2 (source line 71) at the head of `l`: same shape with the
looser amount grammar `(\d[\d\s]*,\d{2})`. -/
def matchP2At (l : Str) : Option (RawMatch × Str) := do
  let (d1, r1) ← matchDateAt l
  let (w1, r2) ← wsRun1 r1
  let (d2, r3) ← matchDateAt r2
  let (w2, r4) ← wsRun1 r3
  let (nat, wm, am, rest) ← lazyNatAmt amtB [] r4
  some ({ full := d1 ++ w1 ++ d2 ++ w2 ++ nat ++ wm ++ am,
          date := d1, valeur := d2, nature := nat, amount := am }, rest)

/-- Pattern 3 (source line 73) at the head of `l`:
`(\d{2}\/\d{2}\/\d{4})\s+(.+?)\s+(\d{1,3}(?:\s?\d{3})*,\d{2}|\d+,\d{2})`.
The source's 4-group branch sets `valeur = date`. -/
def matchP3At (l : Str) : Option (RawMatch × Str) := do
  let (d1, r1) ← matchDateAt l
  let (w1, r2) ← wsRun1 r1
  let (nat, wm, am, rest) ← lazyNatAmt amtA [] r2
  some ({ full := d1 ++ w1 ++ nat ++ wm ++ am,
          date := d1, valeur := d1, nature := nat, amount := am }, rest)

/-- The `while ((match = pattern.exec(text)) !== null)` loop: leftmost
match, then resume at the match's end (`lastIndex`). -/
def scanM (m : Str → Option (RawMatch × Str)) : Nat → Str → List RawMatch
  | 0, _ => []
  | fuel + 1, l =>
    match m l with
    | some (rm, rest) => rm :: scanM m fuel rest
    | none =>
      match l with
      | [] => []
      | _ :: t => scanM m fuel t

/-- `debitKeywords` of `isDebitTransaction` (source lines 352-383),
verbatim, including the trailing space of `'CB '`. -/
def debitKeywords : List Str :=
  [strL ("PRELEVEMENT"), strL ("VIREMENT EMIS"), strL ("VIR EMIS"),
   strL ("VIR INSTANTANE EMIS"), strL ("FRAIS"), strL ("COMMISSION"),
   strL ("COTISATION"), strL ("ABONNEMENT"), strL ("FACTURE"),
   strL ("PAIEMENT"), strL ("RETRAIT"), strL ("CARTE"), strL ("CB "),
   strL ("CHEQUE"), strL ("ACHAT"), strL ("LOCATION"), strL ("LOYER"),
   strL ("ASSURANCE"), strL ("MUTUELLE"), strL ("INTERNET"),
   strL ("TELEPHONE"), strL ("ELECTRICITE"), strL ("GAZ"), strL ("EAU"),
   strL ("SALAIRE"), strL ("PAIE"), strL ("REMUNERATION"),
   strL ("VIREMENT SALAIRE"), strL ("VIREMENT PAIE"), strL ("MASSE SALARIALE")]

/-- `creditKeywords` of `isDebitTransaction` (source lines 386-394), verbatim. -/
def creditKeywords : List Str :=
  [strL ("VIREMENT RECU"), strL ("VIR RECU"), strL ("VIR INSTANTANE RECU"),
   strL ("REMISE CB"), strL ("VERSEMENT RECU"), strL ("DEPOT ESPECE"),
   strL ("ENCAISSEMENT")]

/-- `isDebitTransaction(line, nature)` (source lines 351-411): uppercase
`line + ' ' + nature`, return CREDIT (false) on any credit keyword,
otherwise DEBIT (true) on any debit keyword, otherwise DEBIT by default. -/
def isDebitTransaction (line nature : Str) : Bool :=
  let upperLine := upList (line ++ [' '] ++ nature)
  if creditKeywords.any (fun k => containsSub upperLine k) then false
  else if debitKeywords.any (fun k => containsSub upperLine k) then true
  else true

/-- `this.costCategories` (source lines 8-27), verbatim and in declaration
order. -/
def costCategories : List Str :=
  [strL ("ASSURANCE"), strL ("CHARGES SOCIALES"), strL ("CREDIT CABINET"),
   strL ("FRAIS BANQUE"), strL ("GYM"), strL ("INTERNET"),
   strL ("LEASING MOTO"), strL ("LEASING VOITURE"), strL ("LOGICIEL CABINET"),
   strL ("LOYER CABINET"), strL ("MASSE SALARIALE"), strL ("MATERIEL CABINET"),
   strL ("MUTUELLE"), strL ("MUTUELLE SALARIÉ"), strL ("PREVOYANCE"),
   strL ("TPE BANQUE"), strL ("URSSAF/CHARGES SOCIALES")]

/-- The `fuzzyRules` table (source lines 429-444), in object-literal
insertion order, which `Object.entries` preserves. -/
def fuzzyRules : List (Str × List Str) :=
  [(strL ("MASSE SALARIALE"),
    [strL ("VIR INSTANTANE EMIS NET"), strL ("VIREMENT SALAIRE"), strL ("PAIE"),
     strL ("REMUNERATION"), strL ("SALAIRE")]),
   (strL ("FRAIS BANQUE"),
    [strL ("FRAIS"), strL ("BANCAIRE"), strL ("COMMISSION"), strL ("AGIOS"),
     strL ("COTISATION CARTE"), strL ("TENUE COMPTE")]),
   (strL ("INTERNET"),
    [strL ("ORANGE"), strL ("SFR"), strL ("BOUYGUES"), strL ("FREE"),
     strL ("TELECOM"), strL ("INTERNET"), strL ("MOBILE"), strL ("FIBRE")]),
   (strL ("ASSURANCE"),
    [strL ("ASSURANCE"), strL ("ASSUR"), strL ("MAIF"), strL ("MACIF"),
     strL ("AXA"), strL ("ALLIANZ"), strL ("GENERALI")]),
   (strL ("LOYER CABINET"),
    [strL ("LOYER"), strL ("LOCATION"), strL ("BAIL"), strL ("IMMOBILIER"),
     strL ("CABINET"), strL ("LOCAL")]),
   (strL ("GYM"),
    [strL ("GYM"), strL ("FITNESS"), strL ("SPORT"), strL ("CLUB"),
     strL ("SALLE DE SPORT"), strL ("MUSCULATION")]),
   (strL ("CHARGES SOCIALES"),
    [strL ("URSSAF"), strL ("SOCIAL"), strL ("COTISATION"), strL ("SECU"),
     strL ("RETRAITE"), strL ("POLE EMPLOI")]),
   (strL ("LEASING MOTO"),
    [strL ("LEASING.*MOTO"), strL ("LOCATION.*MOTO"), strL ("SCOOTER"),
     strL ("DEUX ROUES")]),
   (strL ("LEASING VOITURE"),
    [strL ("LEASING.*VOITURE"), strL ("LOCATION.*VEHICULE"), strL ("AUTO"),
     strL ("VOITURE")]),
   (strL ("MUTUELLE"),
    [strL ("MUTUELLE"), strL ("COMPLEMENTAIRE"), strL ("SANTE"), strL ("MEDICAL")]),
   (strL ("MATERIEL CABINET"),
    [strL ("MATERIEL"), strL ("EQUIPEMENT"), strL ("FOURNITURE"), strL ("MOBILIER")]),
   (strL ("LOGICIEL CABINET"),
    [strL ("LOGICIEL"), strL ("SOFTWARE"), strL ("LICENCE"),
     strL ("ABONNEMENT.*INFORMATIQUE")]),
   (strL ("PREVOYANCE"),
    [strL ("PREVOYANCE"), strL ("DECES"), strL ("INVALIDITE"), strL ("INCAPACITE")]),
   (strL ("TPE BANQUE"),
    [strL ("TPE"), strL ("TERMINAL"), strL ("PAIEMENT"), strL ("MONETIQUE")])]

/-- Split a fuzzy keyword on its literal `.*` gaps (the only regex
metacharacters occurring in the table). -/
def splitDotStar : Str → List Str
  | [] => [[]]
  | '.' :: '*' :: t => [] :: splitDotStar t
  | h :: t =>
    match splitDotStar t with
    | [] => [[h]]
    | x :: xs => (h :: x) :: xs

/-- The parts of a `.*`-separated keyword occur in this order inside `seg`
(case-insensitively).  Taking the first occurrence of each part is
complete for existence. -/
def inOrderCI : List Str → Str → Bool
  | [], _ => true
  | p :: ps, seg =>
    match findSubCI seg p with
    | some rest => inOrderCI ps rest
    | none => false

/-- `new RegExp(keyword, 'i').test(text)` for the fuzzy keywords: since
`.` does not match a line feed and the keyword literals contain none, a
match lives inside a single line of `text`. -/
def regexTestI (keyword text : Str) : Bool :=
  (splitNl text).any (fun seg => inOrderCI (splitDotStar keyword) seg)

/-- `categorizeTransaction(nature)` (source lines 418-456): first category
whose literal name the uppercased description contains (confidence
`high`), else the first fuzzy rule with a matching keyword (`medium`),
else `AUTRES` (`low`).  Returns (category, confidence). -/
def categorizeTransaction (nature : Str) : Str × Str :=
  let upperNature := upList nature
  match costCategories.find? (fun c => containsSub upperNature c) with
  | some c => (c, strL ("high"))
  | none =>
    match fuzzyRules.find? (fun r => r.2.any (fun kw => regexTestI kw upperNature)) with
    | some r => (r.1, strL ("medium"))
    | none => (strL ("AUTRES"), strL ("low"))

/-- `determineMovementType(nature)` (source lines 512-521). -/
def determineMovementType (nature : Str) : Str :=
  let upperNature := upList nature
  if containsSub upperNature (strL ("PRELEVEMENT")) then strL ("direct_debit")
  else if containsSub upperNature (strL ("VIREMENT")) then strL ("transfer")
  else if containsSub upperNature (strL ("CARTE")) || containsSub upperNature (strL ("CB")) then
    strL ("card")
  else if containsSub upperNature (strL ("CHEQUE")) then strL ("check")
  else strL ("other")

/-- The `monthlyKeywords` of `determineFrequency` (source line 531). -/
def monthlyKeywords : List Str :=
  [strL ("LOYER"), strL ("ABONNEMENT"), strL ("ASSURANCE"), strL ("MUTUELLE"),
   strL ("INTERNET"), strL ("TELEPHONE")]

/-- The `occasionalKeywords` of `determineFrequency` (source line 532). -/
def occasionalKeywords : List Str :=
  [strL ("ACHAT"), strL ("FACTURE"), strL ("REPARATION"), strL ("MAINTENANCE")]

/-- `determineFrequency(nature)` (source lines 528-543). -/
def determineFrequency (nature : Str) : Str :=
  let upperNature := upList nature
  if monthlyKeywords.any (fun k => containsSub upperNature k) then strL ("monthly")
  else if occasionalKeywords.any (fun k => containsSub upperNature k) then strL ("occasional")
  else strL ("unknown")

/-- The capture `[^0-9\n]+` (greedy; nothing follows it in the regex, so
it is maximal). -/
def capNonDigit (l : Str) : Str := l.takeWhile (fun c => !isDigitCh c && (c != '\n'))

/-- The part `\s*([^0-9\n]+)` of `/POUR:\s*([^0-9\n]+)/i` and
`/DE:\s*([^0-9\n]+)/i`: `\s*` is greedy and backtracks one whitespace
character at a time until the capture can take at least one character. -/
def markerCapGo (l : Str) : Nat → Option Str
  | 0 =>
    let cap := capNonDigit l
    if cap.isEmpty then none else some cap
  | k + 1 =>
    let cap := capNonDigit (l.drop (k + 1))
    if cap.isEmpty then markerCapGo l k else some cap

/-- `nature.match(/MARKER:\s*([^0-9\n]+)/i)`: scan for the leftmost
position where the whole pattern succeeds and return the capture. -/
def scanMarkerCap (marker : Str) : Str → Option Str
  | [] => none
  | h :: t =>
    if prefixAtCI marker (h :: t) then
      let after := (h :: t).drop marker.length
      match markerCapGo after (after.takeWhile isWsCh).length with
      | some cap => some cap
      | none => scanMarkerCap marker t
    else scanMarkerCap marker t

/-- `^(PRELEVEMENT|VIREMENT|PAIEMENT)\s*` (case-insensitive), as
`String.replace` with the empty string: strip when it matches the head. -/
def stripPay (l : Str) : Str :=
  let words := [strL ("PRELEVEMENT"), strL ("VIREMENT"), strL ("PAIEMENT")]
  match words.find? (fun w => prefixAtCI w l) with
  | some w => (l.drop w.length).dropWhile isWsCh
  | none => l

/-- `^(EUROPEEN\s*)?SEPA\s*` (case-insensitive).  When `EUROPEEN` matches
but `SEPA` does not follow, the optional group retries as absent, which
requires `SEPA` at the very start — impossible after an `E` — so the line
is left unchanged. -/
def stripSepa (l : Str) : Str :=
  let eur := strL ("EUROPEEN")
  let sepa := strL ("SEPA")
  if prefixAtCI eur l then
    let r := (l.drop eur.length).dropWhile isWsCh
    if prefixAtCI sepa r then (r.drop sepa.length).dropWhile isWsCh else l
  else if prefixAtCI sepa l then (l.drop sepa.length).dropWhile isWsCh
  else l

/-- `EMIS\s*NET\s*` at the head of `r` (case-insensitive); the rest after
it on success. -/
def stripEmisNetCore (r : Str) : Option Str :=
  let emis := strL ("EMIS")
  let net := strL ("NET")
  if prefixAtCI emis r then
    let r2 := (r.drop emis.length).dropWhile isWsCh
    if prefixAtCI net r2 then some ((r2.drop net.length).dropWhile isWsCh) else none
  else none

/-- `^(INSTANTANE\s*)?EMIS\s*NET\s*` (case-insensitive). -/
def stripEmisNet (l : Str) : Str :=
  let inst := strL ("INSTANTANE")
  if prefixAtCI inst l then
    match stripEmisNetCore ((l.drop inst.length).dropWhile isWsCh) with
    | some r => r
    | none =>
      match stripEmisNetCore l with
      | some r => r
      | none => l
  else
    match stripEmisNetCore l with
    | some r => r
    | none => l

/-- `^(DE|DU|LA|LE|LES):\s*` (case-insensitive; the engine's alternation
order lets `LES:` match after `LE` fails against the colon). -/
def stripArt (l : Str) : Str :=
  let words := [strL ("DE"), strL ("DU"), strL ("LA"), strL ("LE"), strL ("LES")]
  match words.find? (fun w => prefixAtCI (w ++ [':']) l) with
  | some w => (l.drop (w.length + 1)).dropWhile isWsCh
  | none => l

/-- `^(POUR|PAR):\s*` (case-insensitive). -/
def stripPour (l : Str) : Str :=
  let words := [strL ("POUR"), strL ("PAR")]
  match words.find? (fun w => prefixAtCI (w ++ [':']) l) with
  | some w => (l.drop (w.length + 1)).dropWhile isWsCh
  | none => l

/-- The stopword alternation `/^(DE|DU|LA|LE|LES|POUR|PAR|ET|OU|AVEC|SANS|REF|DATE|MOTIF)$/i`. -/
def stopwords : List Str :=
  [strL ("DE"), strL ("DU"), strL ("LA"), strL ("LE"), strL ("LES"),
   strL ("POUR"), strL ("PAR"), strL ("ET"), strL ("OU"), strL ("AVEC"),
   strL ("SANS"), strL ("REF"), strL ("DATE"), strL ("MOTIF")]

/-- Case-insensitive whole-word stopword test. -/
def isStopword (w : Str) : Bool := stopwords.any (fun s => upList w == s)

/-- `/^\d/` on a word. -/
def startsDigit : Str → Bool
  | [] => false
  | c :: _ => isDigitCh c

/-- The character class `[a-zA-ZÀ-ÿ0-9\s\-\.]` of the final clean-up. -/
def allowedNameChar (c : Char) : Bool :=
  (('a' ≤ c) && (c ≤ 'z')) || (('A' ≤ c) && (c ≤ 'Z')) ||
  (('0' ≤ c) && (c ≤ '9')) || (('À' ≤ c) && (c ≤ 'ÿ')) ||
  isWsCh c || (c == '-') || (c == '.')

/-- The general path of `extractClientName` (source lines 482-504): strip
the boilerplate prefixes, split on whitespace, keep words longer than two
characters that do not start with a digit and are not stopwords, take the
first five, join with spaces, collapse whitespace, blank out disallowed
characters, trim, and fall back to `Unknown Client` when empty. -/
def generalClean (nature : Str) : Str :=
  let cleanNature := stripPour (stripArt (stripEmisNet (stripSepa (stripPay nature))))
  let words := splitWsRuns cleanNature
  let meaningful := words.filter (fun w => decide (2 < w.length) && !startsDigit w && !isStopword w)
  let clientName := trim (List.intercalate [' '] (meaningful.take 5))
  let cleaned := trim ((collapseWs clientName).map (fun c => if allowedNameChar c then c else ' '))
  if cleaned.isEmpty then strL ("Unknown Client") else cleaned

/-- `extractClientName(nature)` (source lines 463-505). -/
def extractClientName (nature : Str) : Str :=
  if containsSub nature (strL ("VIR INSTANTANE EMIS NET")) then
    match scanMarkerCap (strL ("POUR:")) nature with
    | some cap => collapseWs (trim cap)
    | none => strL ("Salary Payment")
  else if containsSub nature (strL ("PRELEVEMENT EUROPEEN")) then
    match scanMarkerCap (strL ("DE:")) nature with
    | some cap => collapseWs (trim cap)
    | none => generalClean nature
  else generalClean nature

/-- A raw transaction candidate: JavaScript `null` in the `debit`/`credit`
columns becomes `none`. -/
structure Tx where
  date : Str
  valeur : Str
  nature : Str
  debit : Option Str
  credit : Option Str
deriving Repr, DecidableEq

/-- The transaction object returned by `parseTransactionLine` (source
lines 273-279): the last amount goes to the debit or credit column
according to the classifier's verdict `isD`. -/
def mkLineTx (date valeur nature lastAmount : Str) (isD : Bool) : Tx :=
  { date := date, valeur := valeur, nature := nature,
    debit := if isD then some lastAmount else none,
    credit := if isD then none else some lastAmount }

/-- `parseTransactionLine(line)` (source lines 242-280). -/
def parseTransactionLine (line : Str) : Option Tx :=
  match scanDates line with
  | [] => none
  | d0 :: drest =>
    match scanAmountsFull line with
    | [] => none
    | a0 :: arest =>
      let dates := d0 :: drest
      let amounts := a0 :: arest
      let valeur := match drest with
        | v :: _ => v
        | [] => d0
      let nature0 := dates.foldl (fun n d => replaceFirst n d) line
      let nature1 := amounts.foldl (fun n a => replaceFirst n a) nature0
      let nature := collapseWs (trim nature1)
      let lastAmount := amounts.getLastD a0
      some (mkLineTx d0 valeur nature lastAmount (isDebitTransaction line nature))

/-- `/\d{2}\/\d{2}\/\d{4}/.test(line)`. -/
def dateTest (l : Str) : Bool :=
  testSomewhere (fun t => if dateShape (t.take 10) then some 10 else none) l

/-- `/^\d{2}\/\d{2}\/\d{4}/.test(line)`. -/
def startsWithDate (l : Str) : Bool := dateShape (l.take 10)

/-- Truthiness of `line.match(/(\d{1,3}(?:\s\d{3})*,\d{2}|\d+,\d{2})/)`. -/
def amtTest (l : Str) : Bool := testSomewhere amtLBL l

/-- The operations-section header test (source lines 179-181). -/
def sectionHeaderLine (line : Str) : Bool :=
  containsSub line (strL ("RELEVÉ DES OPÉRATIONS")) ||
  containsSub line (strL ("RELEVE DES OPERATIONS")) ||
  (containsSub line (strL ("Date")) && containsSub line (strL ("Valeur")))

/-- The wrapped-description combining loop (source lines 205-215):
append up to two following non-empty lines that do not start with a date;
returns the combined text and the index `j` where the loop stopped. -/
def combineLines (lines : List Str) (acc : Str) (j stop : Nat) : Nat → Str × Nat
  | 0 => (acc, j)
  | fuel + 1 =>
    if j < lines.length ∧ j < stop then
      let next := trim (lines.getD j [])
      if !next.isEmpty && !startsWithDate next then
        combineLines lines (acc ++ [' '] ++ next) (j + 1) stop fuel
      else (acc, j)
    else (acc, j)

/-- `if (transaction && transaction.debit) { transactions.push(transaction) }`
(source lines 196-199 and 222-225). -/
def pushDebit (acc : List Tx) (o : Option Tx) : List Tx :=
  match o with
  | some tx => if jsTruthy tx.debit then acc ++ [tx] else acc
  | none => acc

/-- The body of `parseTransactionsLineByLine` (source lines 169-234) as a
fuel-indexed loop over the line index `i`; the `i = j - 1` assignment
followed by the loop's `i++` is modelled by recursing at `j`. -/
def lblGo (lines : List Str) : Nat → Nat → Bool → List Tx → List Tx
  | 0, _, _, acc => acc
  | fuel + 1, i, inSec, acc =>
    if i < lines.length then
      let line := trim (lines.getD i [])
      if sectionHeaderLine line then lblGo lines fuel (i + 1) true acc
      else if !inSec || line.isEmpty then lblGo lines fuel (i + 1) inSec acc
      else
        let acc1 :=
          if amtTest line && dateTest line then pushDebit acc (parseTransactionLine line)
          else acc
        if startsWithDate line then
          let fj := combineLines lines line (i + 1) (i + 3) (i + 3)
          let acc2 :=
            if !amtTest line then pushDebit acc1 (parseTransactionLine fj.1)
            else acc1
          lblGo lines fuel fj.2 inSec acc2
        else lblGo lines fuel (i + 1) inSec acc1
    else acc

/-- `parseTransactionsLineByLine(lines)` (source lines 169-234). -/
def parseTransactionsLineByLine (lines : List Str) : List Tx :=
  lblGo lines (lines.length + 1) 0 false []

/-- Build the transaction pushed for a regex match (source lines 119-137):
the side of the amount is decided by `isDebitTransaction(match[0], nature)`
and the stored description is trimmed. -/
def mkTx (m : RawMatch) : Tx :=
  if isDebitTransaction m.full m.nature then
    { date := m.date, valeur := m.valeur, nature := trim m.nature,
      debit := some m.amount, credit := none }
  else
    { date := m.date, valeur := m.valeur, nature := trim m.nature,
      debit := none, credit := some m.amount }

/-- The duplicate test of the regex phase (source lines 101-106), against
a stored transaction `t` and the new match's raw fields. -/
def isDupRegex (t : Tx) (date amount nature : Str) : Bool :=
  (t.date == date) && (t.debit == some amount) &&
  ((t.nature.take 30 == nature.take 30) || containsSub (nature.take 30) (t.nature.take 30))

/-- Processing one regex match (source lines 100-140): skip duplicates,
otherwise push the classified transaction at the end. -/
def stepRegex (acc : List Tx) (m : RawMatch) : List Tx :=
  if acc.any (fun t => isDupRegex t m.date m.amount m.nature) then acc
  else acc ++ [mkTx m]

/-- The duplicate test of the merge phase (source lines 150-154). -/
def isDupMerge (t newTx : Tx) : Bool :=
  (t.date == newTx.date) && (t.debit == newTx.debit) &&
  (t.nature.take 20 == newTx.nature.take 20)

/-- Merging one line-by-line transaction (source lines 149-158). -/
def stepMerge (acc : List Tx) (newTx : Tx) : List Tx :=
  if acc.any (fun t => isDupMerge t newTx) then acc else acc ++ [newTx]

/-- The regex phase of `parseTransactions` (source lines 67-142): the
matches of all three patterns, processed in order against the growing
transaction list. -/
def regexPhase (text : Str) : List Tx :=
  (scanM matchP1At (text.length + 1) text ++
   scanM matchP2At (text.length + 1) text ++
   scanM matchP3At (text.length + 1) text).foldl stepRegex []

/-- The merge of the line-by-line backup into the regex phase's list
(source lines 144-158). -/
def mergedPhase (text : Str) : List Tx :=
  (parseTransactionsLineByLine (splitNl text)).foldl stepMerge (regexPhase text)

/-- `parseTransactions(text)` (source lines 59-162): run the three global
regex strategies in order, deduplicating on the fly; merge the
line-by-line backup results; return only transactions whose `debit`
is truthy (`transactions.filter(t => t.debit)`). -/
def parseTransactions (text : Str) : List Tx :=
  (mergedPhase text).filter (fun t => jsTruthy t.debit)

/-- The structured expense record returned by `processTransactions`
(source lines 561-577).  The numeric `amount` computed at source line 559
is never stored in the returned object (dead local), so it has no field
here. -/
structure Expense where
  index : Nat
  date : Str
  center : Str
  client : Str
  amountWithTaxes : Str
  amountWithoutTaxes : Str
  worker : Str
  taxes : Str
  typeOfTransaction : Str
  typeOfMovement : Str
  frequency : Str
  typeOfClient : Str
  service : Str
  confidence : Str
  rawNature : Str
deriving Repr, DecidableEq

/-- The record built for one transaction whose `debit` is the string `d`
(source lines 551-578): `amountWithTaxes` is `debit` with every
whitespace character removed and `'€'` appended. -/
def mkExpense (idx : Nat) (t : Tx) (d : Str) : Expense :=
  let categorization := categorizeTransaction t.nature
  { index := idx + 1,
    date := t.date,
    center := [],
    client := extractClientName t.nature,
    amountWithTaxes := removeWs d ++ ['€'],
    amountWithoutTaxes := [],
    worker := [],
    taxes := [],
    typeOfTransaction := strL ("cost"),
    typeOfMovement := determineMovementType t.nature,
    frequency := determineFrequency t.nature,
    typeOfClient := strL ("service"),
    service := categorization.1,
    confidence := categorization.2,
    rawNature := t.nature }

/-- `processTransactions` over the list with its running map index.  The
source calls `transaction.debit.replace(...)` unconditionally, which
throws a `TypeError` when `debit` is `null`; that is the `.error` case. -/
def processGo : Nat → List Tx → Except Str (List Expense)
  | _, [] => .ok []
  | i, t :: ts =>
    match t.debit with
    | none => .error (strL ("TypeError"))
    | some d =>
      match processGo (i + 1) ts with
      | .ok l => .ok (mkExpense i t d :: l)
      | .error e => .error e

/-- `processTransactions(transactions)` (source lines 550-579). -/
def processTransactionsE (ts : List Tx) : Except Str (List Expense) := processGo 0 ts

/-- The core pipeline: `parseTransactions` then `processTransactions`. -/
def pipelineE (text : Str) : Except Str (List Expense) :=
  processTransactionsE (parseTransactions text)

/-! ### Claim-side data and concrete fixtures -/

/-- The fixed category enumeration of the specification's Glossary
(fifteen names).  This list follows the spec's words, to be compared with
the source's `costCategories`. -/
def specCategories : List Str :=
  [strL ("MASSE SALARIALE"), strL ("FRAIS BANQUE"), strL ("INTERNET"),
   strL ("ASSURANCE"), strL ("LOYER CABINET"), strL ("GYM"),
   strL ("CHARGES SOCIALES"), strL ("LEASING MOTO"), strL ("LEASING VOITURE"),
   strL ("MUTUELLE"), strL ("MATERIEL CABINET"), strL ("LOGICIEL CABINET"),
   strL ("PREVOYANCE"), strL ("TPE BANQUE"), strL ("AUTRES")]

/-- The credit keyword enumeration as the claim states it (it coincides
with the source's `creditKeywords`). -/
def claimCreditKeywords : List Str :=
  [strL ("VIREMENT RECU"), strL ("VIR RECU"), strL ("VIR INSTANTANE RECU"),
   strL ("REMISE CB"), strL ("VERSEMENT RECU"), strL ("DEPOT ESPECE"),
   strL ("ENCAISSEMENT")]

/-- The scenario-1 input line of the specification. -/
def scenario1 : Str :=
  strL ("02/01/2025 02/01/2025 VIR INSTANTANE EMIS NET POUR: M. JORGE GOENAGA PEREZ 2 000,00")

/-- The description captured from the scenario-1 line by the strict
pattern (pattern 1). -/
def scenario1Nature : Str :=
  strL ("VIR INSTANTANE EMIS NET POUR: M. JORGE GOENAGA PEREZ")

/-- The description captured from the scenario-1 line by the single-date
fallback (pattern 3), which re-reads the value date as description text. -/
def scenario1NatureP3 : Str :=
  strL ("02/01/2025 VIR INSTANTANE EMIS NET POUR: M. JORGE GOENAGA PEREZ")

/-- The first transaction `parseTransactions` produces on scenario 1. -/
def scenario1Tx1 : Tx :=
  { date := strL ("02/01/2025"), valeur := strL ("02/01/2025"),
    nature := scenario1Nature, debit := some (strL ("2 000,00")), credit := none }

/-- The second transaction `parseTransactions` produces on scenario 1
(the pattern-3 near-duplicate that survives the 30-character prefix
check because its description starts with the value date). -/
def scenario1Tx2 : Tx :=
  { date := strL ("02/01/2025"), valeur := strL ("02/01/2025"),
    nature := scenario1NatureP3, debit := some (strL ("2 000,00")), credit := none }

/-- The first expense record the pipeline produces on scenario 1. -/
def scenario1Rec1 : Expense :=
  { index := 1, date := strL ("02/01/2025"), center := [],
    client := strL ("M. JORGE GOENAGA PEREZ"),
    amountWithTaxes := strL ("2000,00€"), amountWithoutTaxes := [],
    worker := [], taxes := [], typeOfTransaction := strL ("cost"),
    typeOfMovement := strL ("other"), frequency := strL ("unknown"),
    typeOfClient := strL ("service"), service := strL ("MASSE SALARIALE"),
    confidence := strL ("medium"), rawNature := scenario1Nature }

/-- The second expense record the pipeline produces on scenario 1. -/
def scenario1Rec2 : Expense :=
  { index := 2, date := strL ("02/01/2025"), center := [],
    client := strL ("M. JORGE GOENAGA PEREZ"),
    amountWithTaxes := strL ("2000,00€"), amountWithoutTaxes := [],
    worker := [], taxes := [], typeOfTransaction := strL ("cost"),
    typeOfMovement := strL ("other"), frequency := strL ("unknown"),
    typeOfClient := strL ("service"), service := strL ("MASSE SALARIALE"),
    confidence := strL ("medium"), rawNature := scenario1NatureP3 }

/-- A stored transaction with a short description, for the deduplication
asymmetry example. -/
def dupTxShort : Tx :=
  { date := strL ("01/01/2025"), valeur := strL ("01/01/2025"),
    nature := strL ("ALPHA BETA"), debit := some (strL ("1,00")), credit := none }

/-- The same transaction with a longer description extending the short one. -/
def dupTxLong : Tx :=
  { date := strL ("01/01/2025"), valeur := strL ("01/01/2025"),
    nature := strL ("ALPHA BETA GAMMA"), debit := some (strL ("1,00")), credit := none }

/-- A transaction's debit column, when set, excludes the credit column
(the invariant every push site of the source maintains). -/
def debitOnly (t : Tx) : Prop := t.debit.isSome = true → t.credit = none

/-! ### Helper lemmas -/

theorem mkTx_debitOnly (m : RawMatch) : debitOnly (mkTx m) := by
  unfold mkTx debitOnly
  split
  · intro _; rfl
  · intro h; simp at h

theorem mkLineTx_debitOnly (d v n a : Str) (b : Bool) : debitOnly (mkLineTx d v n a b) := by
  cases b <;> (intro h; simp [mkLineTx] at h ⊢)

theorem mkLineTx_debit_true {d v n a : Str} {b : Bool}
    (h : (mkLineTx d v n a b).debit ≠ none) : b = true := by
  cases b
  · exact absurd rfl h
  · rfl

theorem parseTransactionLine_debitOnly {line : Str} {tx : Tx}
    (h : parseTransactionLine line = some tx) : debitOnly tx := by
  simp only [parseTransactionLine] at h
  split at h
  · exact Option.noConfusion h
  · split at h
    · exact Option.noConfusion h
    · injection h with h
      exact h ▸ mkLineTx_debitOnly _ _ _ _ _

theorem parseTransactionLine_debit_classified {line : Str} {tx : Tx}
    (h : parseTransactionLine line = some tx) (hd : tx.debit ≠ none) :
    isDebitTransaction line tx.nature = true := by
  simp only [parseTransactionLine] at h
  split at h
  · exact Option.noConfusion h
  · split at h
    · exact Option.noConfusion h
    · injection h with h
      subst h
      exact mkLineTx_debit_true hd

theorem pushDebit_mem {acc : List Tx} {o : Option Tx} {t : Tx}
    (h : t ∈ pushDebit acc o) : t ∈ acc ∨ ∃ tx, o = some tx ∧ t = tx := by
  unfold pushDebit at h
  split at h
  · next tx =>
    split at h
    · rcases List.mem_append.mp h with h | h
      · exact Or.inl h
      · exact Or.inr ⟨tx, rfl, List.mem_singleton.mp h⟩
    · exact Or.inl h
  · exact Or.inl h

theorem lblGo_prop (lines : List Str) (P : Tx → Prop)
    (hP : ∀ line tx, parseTransactionLine line = some tx → P tx) :
    ∀ fuel i inSec acc, (∀ t ∈ acc, P t) → ∀ t ∈ lblGo lines fuel i inSec acc, P t := by
  have hpush : ∀ (a : List Tx) (lineArg : Str), (∀ u ∈ a, P u) →
      ∀ u ∈ pushDebit a (parseTransactionLine lineArg), P u := by
    intro a lineArg ha u hu
    rcases pushDebit_mem hu with h | ⟨tx2, ho, heq⟩
    · exact ha u h
    · exact heq ▸ hP lineArg tx2 ho
  intro fuel
  induction fuel with
  | zero => intro i inSec acc hacc t ht; exact hacc t ht
  | succ fuel ih =>
    intro i inSec acc hacc t ht
    rw [lblGo] at ht
    by_cases hi : i < lines.length
    · rw [if_pos hi] at ht
      dsimp only at ht
      by_cases hsec : sectionHeaderLine (trim (lines.getD i []))
      · rw [if_pos hsec] at ht
        exact ih _ _ _ hacc t ht
      · rw [if_neg hsec] at ht
        by_cases hskip : (!inSec || (trim (lines.getD i [])).isEmpty) = true
        · rw [if_pos hskip] at ht
          exact ih _ _ _ hacc t ht
        · rw [if_neg hskip] at ht
          have hacc1 : ∀ u ∈ (if (amtTest (trim (lines.getD i [])) &&
                dateTest (trim (lines.getD i []))) = true
              then pushDebit acc (parseTransactionLine (trim (lines.getD i [])))
              else acc), P u := by
            split
            · exact hpush _ _ hacc
            · exact hacc
          by_cases hsd : startsWithDate (trim (lines.getD i [])) = true
          · rw [if_pos hsd] at ht
            have hacc2 : ∀ u ∈ (if (!amtTest (trim (lines.getD i []))) = true
                then pushDebit
                  (if (amtTest (trim (lines.getD i [])) &&
                      dateTest (trim (lines.getD i []))) = true
                   then pushDebit acc (parseTransactionLine (trim (lines.getD i [])))
                   else acc)
                  (parseTransactionLine
                    (combineLines lines (trim (lines.getD i [])) (i + 1) (i + 3) (i + 3)).1)
                else
                  (if (amtTest (trim (lines.getD i [])) &&
                      dateTest (trim (lines.getD i []))) = true
                   then pushDebit acc (parseTransactionLine (trim (lines.getD i [])))
                   else acc)), P u := by
              split
              · exact hpush _ _ hacc1
              · exact hacc1
            exact ih _ _ _ hacc2 t ht
          · rw [if_neg hsd] at ht
            exact ih _ _ _ hacc1 t ht
    · rw [if_neg hi] at ht
      exact hacc t ht

theorem foldl_stepRegex_prop (P : Tx → Prop) (hmk : ∀ m : RawMatch, P (mkTx m)) :
    ∀ (ms : List RawMatch) (acc : List Tx), (∀ t ∈ acc, P t) →
      ∀ t ∈ ms.foldl stepRegex acc, P t := by
  intro ms
  induction ms with
  | nil => intro acc hacc t ht; exact hacc t ht
  | cons m ms ih =>
    intro acc hacc t ht
    refine ih _ ?_ t ht
    intro u hu
    unfold stepRegex at hu
    split at hu
    · exact hacc u hu
    · rcases List.mem_append.mp hu with h | h
      · exact hacc u h
      · exact (List.mem_singleton.mp h) ▸ hmk m

theorem foldl_stepMerge_prop (P : Tx → Prop) :
    ∀ (l : List Tx) (acc : List Tx), (∀ t ∈ acc, P t) → (∀ t ∈ l, P t) →
      ∀ t ∈ l.foldl stepMerge acc, P t := by
  intro l
  induction l with
  | nil => intro acc hacc _ t ht; exact hacc t ht
  | cons x l ih =>
    intro acc hacc hl t ht
    refine ih _ ?_ (fun u hu => hl u (List.mem_cons_of_mem x hu)) t ht
    intro u hu
    unfold stepMerge at hu
    split at hu
    · exact hacc u hu
    · rcases List.mem_append.mp hu with h | h
      · exact hacc u h
      · exact (List.mem_singleton.mp h) ▸ hl x (List.mem_cons_self x l)

theorem mergedPhase_debitOnly : ∀ (text : Str) (t : Tx), t ∈ mergedPhase text → debitOnly t := by
  intro text t ht
  unfold mergedPhase at ht
  refine foldl_stepMerge_prop debitOnly _ _ ?_ ?_ t ht
  · intro u hu
    unfold regexPhase at hu
    exact foldl_stepRegex_prop debitOnly mkTx_debitOnly _ _ (by intro v hv; cases hv) u hu
  · intro u hu
    unfold parseTransactionsLineByLine at hu
    exact lblGo_prop _ debitOnly (fun line tx h => parseTransactionLine_debitOnly h)
      _ _ _ _ (by intro v hv; cases hv) u hu

theorem parseTransactions_members :
    ∀ (text : Str) (t : Tx), t ∈ parseTransactions text →
      (∃ s, t.debit = some s ∧ s ≠ []) ∧ t.credit = none := by
  intro text t ht
  unfold parseTransactions at ht
  have hmem := List.mem_filter.mp ht
  have hdo := mergedPhase_debitOnly text t hmem.1
  have htr : jsTruthy t.debit = true := hmem.2
  cases hdb : t.debit with
  | none => rw [hdb] at htr; exact Bool.noConfusion htr
  | some s =>
    rw [hdb] at htr
    have hs : s ≠ [] := by
      cases s with
      | nil => simp [jsTruthy] at htr
      | cons c cs => simp
    refine ⟨⟨s, rfl, hs⟩, hdo ?_⟩
    rw [hdb]; rfl

theorem processGo_total :
    ∀ (ts : List Tx) (i : Nat), (∀ t ∈ ts, t.debit.isSome = true) →
      ∃ l, processGo i ts = .ok l := by
  intro ts
  induction ts with
  | nil => exact fun i _ => ⟨[], rfl⟩
  | cons t ts ih =>
    intro i hall
    have ht := hall t (List.mem_cons_self t ts)
    cases hdb : t.debit with
    | none => rw [hdb] at ht; exact Bool.noConfusion ht
    | some d =>
      obtain ⟨l, hl⟩ := ih (i + 1) (fun u hu => hall u (List.mem_cons_of_mem t hu))
      exact ⟨mkExpense i t d :: l, by simp [processGo, hdb, hl]⟩

theorem pipelineE_total : ∀ text : Str, ∃ l, pipelineE text = .ok l := by
  intro text
  refine processGo_total _ 0 ?_
  intro t ht
  obtain ⟨⟨s, hs, _⟩, _⟩ := parseTransactions_members text t ht
  rw [hs]; rfl

theorem dateShape_length {l : Str} (h : dateShape l = true) : l.length = 10 := by
  unfold dateShape at h
  split at h
  · rfl
  · exact Bool.noConfusion h

theorem dateShape_take_append {t b : Str} (h : dateShape (t.take 10) = true) :
    dateShape ((t ++ b).take 10) = true := by
  have hlen : (t.take 10).length = 10 := dateShape_length h
  have h10 : 10 ≤ t.length := by
    by_contra hlt
    push_neg at hlt
    rw [List.take_of_length_le (Nat.le_of_lt hlt)] at hlen
    omega
  rw [List.take_append_eq_append_take, Nat.sub_eq_zero_of_le h10, List.take_zero,
    List.append_nil]
  exact h

theorem dateTest_iff (l : Str) :
    dateTest l = true ↔ ∃ t, t <:+ l ∧ dateShape (t.take 10) = true := by
  unfold dateTest testSomewhere
  rw [List.any_eq_true]
  constructor
  · rintro ⟨t, htails, hsome⟩
    refine ⟨t, (List.mem_tails t l).mp htails, ?_⟩
    dsimp only at hsome
    by_cases hds : dateShape (t.take 10) = true
    · exact hds
    · rw [if_neg hds] at hsome; exact Bool.noConfusion hsome
  · rintro ⟨t, hsuf, hds⟩
    refine ⟨t, (List.mem_tails t l).mpr hsuf, ?_⟩
    dsimp only
    rw [if_pos hds]
    rfl

theorem dateTest_mono {l L : Str} (hinf : l <:+: L) (h : dateTest l = true) :
    dateTest L = true := by
  obtain ⟨t, hsuf, hds⟩ := (dateTest_iff l).mp h
  obtain ⟨a, b, hL⟩ := hinf
  obtain ⟨c, hc⟩ := hsuf
  refine (dateTest_iff L).mpr ⟨t ++ b, ⟨a ++ c, ?_⟩, dateShape_take_append hds⟩
  rw [← hL, ← hc]
  simp [List.append_assoc]

theorem startsWithDate_dateTest {l : Str} (h : startsWithDate l = true) :
    dateTest l = true := by
  unfold startsWithDate at h
  exact (dateTest_iff l).mpr ⟨l, List.suffix_refl l, h⟩

theorem matchDateAt_none {l : Str} (h : dateShape (l.take 10) = false) :
    matchDateAt l = none := by
  simp [matchDateAt, h]

theorem matchP1At_none {l : Str} (h : matchDateAt l = none) : matchP1At l = none := by
  simp [matchP1At, h]

theorem matchP2At_none {l : Str} (h : matchDateAt l = none) : matchP2At l = none := by
  simp [matchP2At, h]

theorem matchP3At_none {l : Str} (h : matchDateAt l = none) : matchP3At l = none := by
  simp [matchP3At, h]

theorem scanM_eq_nil {m : Str → Option (RawMatch × Str)} :
    ∀ (fuel : Nat) (l : Str), (∀ t, t <:+ l → m t = none) → scanM m fuel l = [] := by
  intro fuel
  induction fuel with
  | zero => intro l _; rfl
  | succ fuel ih =>
    intro l hl
    simp only [scanM, hl l (List.suffix_refl _)]
    cases l with
    | nil => rfl
    | cons c t => exact ih t (fun u hu => hl u (hu.trans (List.suffix_cons c t)))

theorem regexPhase_eq_nil {text : Str} (h : dateTest text = false) :
    regexPhase text = [] := by
  have hshape : ∀ t : Str, t <:+ text → dateShape (t.take 10) = false := by
    intro t hsuf
    by_contra hds
    rw [Bool.not_eq_false] at hds
    have hdt : dateTest text = true := (dateTest_iff text).mpr ⟨t, hsuf, hds⟩
    rw [h] at hdt
    exact Bool.noConfusion hdt
  have hdn : ∀ t : Str, t <:+ text → matchDateAt t = none :=
    fun t hsuf => matchDateAt_none (hshape t hsuf)
  unfold regexPhase
  rw [scanM_eq_nil _ _ (fun t hsuf => matchP1At_none (hdn t hsuf)),
      scanM_eq_nil _ _ (fun t hsuf => matchP2At_none (hdn t hsuf)),
      scanM_eq_nil _ _ (fun t hsuf => matchP3At_none (hdn t hsuf))]
  rfl

theorem splitNl_spec :
    ∀ t : Str, ∃ x xs, splitNl t = x :: xs ∧ x <+: t ∧ ∀ y ∈ xs, y <:+: t := by
  intro t
  induction t with
  | nil => exact ⟨[], [], rfl, List.nil_prefix, by intro y hy; cases hy⟩
  | cons h t ih =>
    obtain ⟨x, xs, he, hx, hxs⟩ := ih
    by_cases hnl : h = '\n'
    · refine ⟨[], splitNl t, ?_, List.nil_prefix, ?_⟩
      · subst hnl; simp [splitNl]
      · intro y hy
        rw [he] at hy
        rcases List.mem_cons.mp hy with rfl | hy2
        · exact List.infix_cons hx.isInfix
        · exact List.infix_cons (hxs y hy2)
    · have hbeq : (h == '\n') = false := by simp [hnl]
      refine ⟨h :: x, xs, ?_, ?_, fun y hy => List.infix_cons (hxs y hy)⟩
      · simp only [splitNl, hbeq, Bool.false_eq_true, if_false, he]
      · obtain ⟨r, hr⟩ := hx
        exact ⟨r, by rw [← hr]; rfl⟩

theorem mem_splitNl_within {l t : Str} (h : l ∈ splitNl t) : l <:+: t := by
  obtain ⟨x, xs, he, hx, hxs⟩ := splitNl_spec t
  rw [he] at h
  rcases List.mem_cons.mp h with rfl | h2
  · exact hx.isInfix
  · exact hxs l h2

theorem trimL_suffix : ∀ l : Str, trimL l <:+ l := by
  intro l
  induction l with
  | nil => exact List.suffix_refl _
  | cons h t ih =>
    unfold trimL
    split
    · exact ih.trans (List.suffix_cons h t)
    · exact List.suffix_refl _

theorem trim_within (l : Str) : trim l <:+: l := by
  unfold trim
  have h2 : (trimL l.reverse).reverse <+: l := by
    rw [← List.reverse_suffix, List.reverse_reverse]
    exact trimL_suffix l.reverse
  exact (trimL_suffix _).isInfix.trans h2.isInfix

theorem getD_mem {l : List Str} {i : Nat} (h : i < l.length) : l.getD i [] ∈ l := by
  rw [List.getD_eq_getElem l [] h]
  exact List.getElem_mem h

theorem lblGo_nil (lines : List Str)
    (hd : ∀ i, i < lines.length → dateTest (trim (lines.getD i [])) = false) :
    ∀ fuel i inSec, lblGo lines fuel i inSec [] = [] := by
  intro fuel
  induction fuel with
  | zero => intro i inSec; rfl
  | succ fuel ih =>
    intro i inSec
    rw [lblGo]
    by_cases hi : i < lines.length
    · rw [if_pos hi]
      dsimp only
      by_cases hsec : sectionHeaderLine (trim (lines.getD i [])) = true
      · rw [if_pos hsec]; exact ih _ _
      · rw [if_neg hsec]
        by_cases hskip : (!inSec || (trim (lines.getD i [])).isEmpty) = true
        · rw [if_pos hskip]; exact ih _ _
        · rw [if_neg hskip]
          have hdt : dateTest (trim (lines.getD i [])) = false := hd i hi
          have hc1 : (amtTest (trim (lines.getD i [])) &&
              dateTest (trim (lines.getD i []))) = false := by
            rw [hdt]; exact Bool.and_false _
          have hnc1 : ¬((amtTest (trim (lines.getD i [])) &&
              dateTest (trim (lines.getD i []))) = true) := by
            rw [hc1]; simp
          rw [if_neg hnc1]
          have hsd : startsWithDate (trim (lines.getD i [])) = false := by
            by_contra hsd
            rw [Bool.not_eq_false] at hsd
            have hxx := startsWithDate_dateTest hsd
            rw [hdt] at hxx
            exact Bool.noConfusion hxx
          have hnsd : ¬(startsWithDate (trim (lines.getD i [])) = true) := by
            rw [hsd]; simp
          rw [if_neg hnsd]
          exact ih _ _
    · rw [if_neg hi]

theorem parseTransactions_noDate {text : Str} (h : dateTest text = false) :
    parseTransactions text = [] := by
  have hlbl : parseTransactionsLineByLine (splitNl text) = [] := by
    unfold parseTransactionsLineByLine
    refine lblGo_nil _ ?_ _ _ _
    intro i hi
    by_contra hdt
    rw [Bool.not_eq_false] at hdt
    have hinf : trim ((splitNl text).getD i []) <:+: text :=
      (trim_within _).trans (mem_splitNl_within (getD_mem hi))
    have hx := dateTest_mono hinf hdt
    rw [h] at hx
    exact Bool.noConfusion hx
  unfold parseTransactions mergedPhase
  rw [hlbl, regexPhase_eq_nil h]
  rfl

/-! ### Theorems -/

/-- C1, counterexample: on the description `CREDIT CABINET` the category
classifier returns the category `CREDIT CABINET` (confidence `high`),
which is not in the claim's fixed fifteen-name enumeration — the source's
`costCategories` table has seventeen entries, not the Glossary's set. -/
theorem C1_counterexample :
    (categorizeTransaction (strL ("CREDIT CABINET"))).1 = strL ("CREDIT CABINET") ∧
    strL ("CREDIT CABINET") ∉ specCategories ∧
    (categorizeTransaction (strL ("CREDIT CABINET"))).2 = strL ("high") := by
  exact ⟨by decide, by decide, by decide⟩

/-- C1, amended: for every description string, `categorizeTransaction`
returns a category from the source's seventeen-entry `costCategories`
table extended by the catch-all `AUTRES` (never a category outside that
set, never empty), and a confidence drawn from `high`, `medium`, `low`. -/
theorem C1_category_totality :
    ∀ nature : Str,
      (categorizeTransaction nature).1 ∈ costCategories ++ [strL ("AUTRES")] ∧
      (categorizeTransaction nature).2 ∈ [strL ("high"), strL ("medium"), strL ("low")] := by
  intro nature
  cases h1 : costCategories.find? (fun c => containsSub (upList nature) c) with
  | some c =>
    have he : categorizeTransaction nature = (c, strL ("high")) := by
      simp only [categorizeTransaction, h1]
    rw [he]
    exact ⟨List.mem_append_left _ (List.mem_of_find?_eq_some h1), by simp⟩
  | none =>
    cases h2 : fuzzyRules.find? (fun r => r.2.any (fun kw => regexTestI kw (upList nature))) with
    | some r =>
      have he : categorizeTransaction nature = (r.1, strL ("medium")) := by
        simp only [categorizeTransaction, h1, h2]
      rw [he]
      have hall : ∀ x ∈ fuzzyRules, x.1 ∈ costCategories ++ [strL ("AUTRES")] := by decide
      exact ⟨hall r (List.mem_of_find?_eq_some h2), by simp⟩
    | none =>
      have he : categorizeTransaction nature = (strL ("AUTRES"), strL ("low")) := by
        simp only [categorizeTransaction, h1, h2]
      rw [he]
      exact ⟨by simp, by simp⟩

/-- C3, confirmed: the debit/credit classifier applies its rules in order
with first match winning on the uppercased (space-joined, as in the
source) concatenation of line and description: any of the seven credit
keywords forces CREDIT (`false`) even when a debit keyword is present;
otherwise the result is DEBIT (`true`), whether by debit keyword or by
the default policy. -/
theorem C3_classifier_order :
    ∀ line nature : Str,
      ((claimCreditKeywords.any
          fun kw => containsSub (upList (line ++ [' '] ++ nature)) kw) = true →
        isDebitTransaction line nature = false) ∧
      ((claimCreditKeywords.any
          fun kw => containsSub (upList (line ++ [' '] ++ nature)) kw) = false →
        isDebitTransaction line nature = true) ∧
      (isDebitTransaction line nature = false ↔
        ∃ kw ∈ claimCreditKeywords,
          containsSub (upList (line ++ [' '] ++ nature)) kw = true) := by
  intro line nature
  have hlist : claimCreditKeywords = creditKeywords := by decide
  rw [hlist]
  cases h : creditKeywords.any
      (fun kw => containsSub (upList (line ++ [' '] ++ nature)) kw) with
  | true =>
    have he : isDebitTransaction line nature = false := by
      simp only [isDebitTransaction, h, if_true]
    rw [he]
    refine ⟨fun _ => rfl, ?_, ?_⟩
    · intro hc; exact Bool.noConfusion hc
    · exact ⟨fun _ => List.any_eq_true.mp h, fun _ => rfl⟩
  | false =>
    have he : isDebitTransaction line nature = true := by
      simp only [isDebitTransaction, h, Bool.false_eq_true, if_false, ite_self]
    rw [he]
    refine ⟨?_, fun _ => rfl, ?_⟩
    · intro hc; exact Bool.noConfusion hc
    · constructor
      · intro hc; exact Bool.noConfusion hc
      · intro hex
        have hany : creditKeywords.any
            (fun kw => containsSub (upList (line ++ [' '] ++ nature)) kw) = true :=
          List.any_eq_true.mpr hex
        rw [h] at hany
        exact Bool.noConfusion hany

/-- C3, witness: a line containing both the credit keyword `REMISE CB`
and the debit keyword `CARTE` is classified CREDIT. -/
theorem C3_witness :
    isDebitTransaction (strL ("CARTE REMISE CB")) (strL ("")) = false :=
  (C3_classifier_order (strL ("CARTE REMISE CB")) (strL (""))).1 (by decide)

/-- C5, counterexample: the regex-phase duplicate predicate is not
symmetric in the two descriptions.  With equal dates and amount texts, a
stored `ALPHA BETA` absorbs a new `ALPHA BETA GAMMA` (the new
description's first 30 characters contain the stored ones), but a stored
`ALPHA BETA GAMMA` does not absorb a new `ALPHA BETA`, which the claim's
symmetric predicate would collapse. -/
theorem C5_counterexample :
    isDupRegex dupTxShort (strL ("01/01/2025")) (strL ("1,00"))
        (strL ("ALPHA BETA GAMMA")) = true ∧
    isDupRegex dupTxLong (strL ("01/01/2025")) (strL ("1,00"))
        (strL ("ALPHA BETA")) = false := by
  exact ⟨by decide, by decide⟩

/-- C5, amended: the regex-phase deduplicator drops a new candidate
exactly when some already-kept transaction has the same operation date,
a debit equal to the new amount text, and either the two descriptions
agree on their first 30 characters or the new description's first 30
characters contain the stored description's first 30 characters (an
asymmetric test); the line-by-line merge phase uses equality of date,
debit and the first 20 characters only.  First-seen candidates win and
later duplicates are dropped silently. -/
theorem C5_dedup_characterization :
    (∀ (t : Tx) (d a n : Str),
      isDupRegex t d a n = true ↔
        (t.date = d ∧ t.debit = some a ∧
          (t.nature.take 30 = n.take 30 ∨
            containsSub (n.take 30) (t.nature.take 30) = true))) ∧
    (∀ t u : Tx,
      isDupMerge t u = true ↔
        (t.date = u.date ∧ t.debit = u.debit ∧
          t.nature.take 20 = u.nature.take 20)) ∧
    (∀ (acc : List Tx) (m : RawMatch),
      ((acc.any fun t => isDupRegex t m.date m.amount m.nature) = true →
        stepRegex acc m = acc) ∧
      ((acc.any fun t => isDupRegex t m.date m.amount m.nature) = false →
        stepRegex acc m = acc ++ [mkTx m])) ∧
    (∀ (acc : List Tx) (u : Tx),
      ((acc.any fun t => isDupMerge t u) = true → stepMerge acc u = acc) ∧
      ((acc.any fun t => isDupMerge t u) = false → stepMerge acc u = acc ++ [u])) := by
  refine ⟨?_, ?_, ?_, ?_⟩
  · intro t d a n
    simp [isDupRegex, Bool.and_eq_true, Bool.or_eq_true, beq_iff_eq, and_assoc]
  · intro t u
    simp [isDupMerge, Bool.and_eq_true, beq_iff_eq, and_assoc]
  · intro acc m
    constructor
    · intro h; simp [stepRegex, h]
    · intro h; simp [stepRegex, h]
  · intro acc u
    constructor
    · intro h; simp [stepMerge, h]
    · intro h; simp [stepMerge, h]

/-- C5, witness: the characterization applied to the concrete stored
short-description transaction. -/
theorem C5_witness :
    isDupRegex dupTxShort (strL ("01/01/2025")) (strL ("1,00"))
        (strL ("ALPHA BETA GAMMA")) = true :=
  (C5_dedup_characterization.1 dupTxShort (strL ("01/01/2025")) (strL ("1,00"))
      (strL ("ALPHA BETA GAMMA"))).mpr (by exact ⟨by decide, by decide, Or.inr (by decide)⟩)

/-- C6, counterexample: `extractClientName` is not idempotent.  On the
scenario-1 description the salary branch extracts `M. JORGE GOENAGA
PEREZ`; re-running the extractor on that name takes the general path,
whose token filter drops the two-character honorific `M.`, yielding a
different name. -/
theorem C6_counterexample :
    extractClientName (extractClientName scenario1Nature) ≠
      extractClientName scenario1Nature := by decide

/-- C6, amended: `extractClientName` is deterministic but not idempotent:
on the scenario-1 description the first application yields
`M. JORGE GOENAGA PEREZ`, a second application drops the short honorific
token and yields `JORGE GOENAGA PEREZ`, and that name is a genuine fixed
point of the extractor. -/
theorem C6_second_application :
    extractClientName scenario1Nature = strL ("M. JORGE GOENAGA PEREZ") ∧
    extractClientName (strL ("M. JORGE GOENAGA PEREZ")) =
      strL ("JORGE GOENAGA PEREZ") ∧
    extractClientName (strL ("JORGE GOENAGA PEREZ")) =
      strL ("JORGE GOENAGA PEREZ") := by
  exact ⟨by decide, by decide, by decide⟩

/-- C8, counterexample: a description containing a `DE:` marker followed
by the non-empty text `" X"` is cleaned to the literal `Unknown Client`
(the general path strips `DE:` and drops the one-character token), and a
salary description whose `POUR:` marker is followed by the non-empty text
`" 5"` yields the empty name (the capture grabs only whitespace, which
trims away and is returned without the fallback). -/
theorem C8_counterexample :
    extractClientName (strL ("DE: X")) = strL ("Unknown Client") ∧
    strL ("DE: X") = strL ("DE:") ++ strL (" X") ∧ strL (" X") ≠ [] ∧
    extractClientName (strL ("VIR INSTANTANE EMIS NET POUR: 5")) = [] := by
  exact ⟨by decide, by decide, by decide, by decide⟩

/-- C8, amended: whenever the description contains neither of the marker
branches' trigger substrings (`VIR INSTANTANE EMIS NET`,
`PRELEVEMENT EUROPEEN`), the extracted name is non-empty — the general
path falls back to `Unknown Client` on emptiness; with a trigger present
the name can be empty, and `Unknown Client` can be returned even when a
`POUR:`/`DE:` marker with non-empty following text occurs. -/
theorem C8_nonempty_general_path :
    ∀ nature : Str,
      containsSub nature (strL ("VIR INSTANTANE EMIS NET")) = false →
      containsSub nature (strL ("PRELEVEMENT EUROPEEN")) = false →
      extractClientName nature ≠ [] := by
  intro nature h1 h2
  have he : extractClientName nature = generalClean nature := by
    simp only [extractClientName, h1, h2, Bool.false_eq_true, if_false]
  rw [he]
  simp only [generalClean]
  split
  · decide
  · next hne =>
    intro hc
    rw [hc] at hne
    exact hne rfl

/-- C8, witness: an ordinary description takes the general path and gets
a non-empty name. -/
theorem C8_witness : extractClientName (strL ("hello")) ≠ [] :=
  C8_nonempty_general_path (strL ("hello")) (by decide) (by decide)

/-- C10, confirmed: `determineFrequency` returns `monthly` exactly when
the uppercased description contains one of the six monthly keywords,
otherwise `occasional` exactly when it contains one of the four
occasional keywords, otherwise `unknown`; a description containing both a
monthly and an occasional keyword is classified `monthly`, and the result
is always one of the three values. -/
theorem C10_frequency_characterization :
    ∀ nature : Str,
      (determineFrequency nature = strL ("monthly") ↔
        (monthlyKeywords.any fun k => containsSub (upList nature) k) = true) ∧
      (determineFrequency nature = strL ("occasional") ↔
        ((monthlyKeywords.any fun k => containsSub (upList nature) k) = false ∧
         (occasionalKeywords.any fun k => containsSub (upList nature) k) = true)) ∧
      (determineFrequency nature = strL ("unknown") ↔
        ((monthlyKeywords.any fun k => containsSub (upList nature) k) = false ∧
         (occasionalKeywords.any fun k => containsSub (upList nature) k) = false)) ∧
      determineFrequency nature ∈
        [strL ("monthly"), strL ("occasional"), strL ("unknown")] := by
  intro nature
  cases h1 : (monthlyKeywords.any fun k => containsSub (upList nature) k) with
  | true =>
    have he : determineFrequency nature = strL ("monthly") := by
      simp only [determineFrequency, h1, if_true]
    rw [he]
    refine ⟨by simp, ?_, ?_, by simp⟩
    · constructor
      · intro hc; exact absurd hc (by decide)
      · rintro ⟨ha, _⟩; exact Bool.noConfusion ha
    · constructor
      · intro hc; exact absurd hc (by decide)
      · rintro ⟨ha, _⟩; exact Bool.noConfusion ha
  | false =>
    cases h2 : (occasionalKeywords.any fun k => containsSub (upList nature) k) with
    | true =>
      have he : determineFrequency nature = strL ("occasional") := by
        simp only [determineFrequency, h1, h2, Bool.false_eq_true, if_false, if_true]
      rw [he]
      refine ⟨?_, ?_, ?_, by simp⟩
      · constructor
        · intro hc; exact absurd hc (by decide)
        · intro ha; exact Bool.noConfusion ha
      · exact ⟨fun _ => ⟨rfl, rfl⟩, fun _ => rfl⟩
      · constructor
        · intro hc; exact absurd hc (by decide)
        · rintro ⟨_, hb⟩; exact Bool.noConfusion hb
    | false =>
      have he : determineFrequency nature = strL ("unknown") := by
        simp only [determineFrequency, h1, h2, Bool.false_eq_true, if_false]
      rw [he]
      refine ⟨?_, ?_, ?_, by simp⟩
      · constructor
        · intro hc; exact absurd hc (by decide)
        · intro ha; exact Bool.noConfusion ha
      · constructor
        · intro hc; exact absurd hc (by decide)
        · rintro ⟨_, hb⟩; exact Bool.noConfusion hb
      · exact ⟨fun _ => ⟨rfl, rfl⟩, fun _ => rfl⟩

/-- C10, witness: a description containing both `LOYER` (monthly) and
`ACHAT` (occasional) is classified `monthly`. -/
theorem C10_witness :
    determineFrequency (strL ("ACHAT LOYER")) = strL ("monthly") :=
  ((C10_frequency_characterization (strL ("ACHAT LOYER"))).1).mpr (by decide)

/-- Claim C2, counterexample: for a surviving debit transaction whose
matched amount text is `2 000,00`, the produced record's amount string is
`2000,00€` — the space is removed and a euro sign appended — not the
original French-formatted `2 000,00`. -/
theorem C2_counterexample :
    Except.map (List.map Expense.amountWithTaxes) (processTransactionsE [scenario1Tx1]) =
      .ok [strL ("2000,00€")] ∧
    strL ("2000,00€") ≠ strL ("2 000,00") := by
  exact ⟨by rfl, by decide⟩

/-- Claim C2, amended: for every surviving debit transaction,
`processTransactions` stores the amount with every whitespace character
removed and `€` appended (`amountWithTaxes`); the numeric value parsed at
source line 559 is a dead local never placed in the record, and the
original spaced string survives only inside `rawNature`'s source text. -/
theorem C2_amount_renormalized :
    ∀ (i : Nat) (ts : List Tx) (l : List Expense) (t : Tx) (d : Str),
      processGo i ts = .ok l → t ∈ ts → t.debit = some d →
      ∃ r ∈ l, r.amountWithTaxes = removeWs d ++ ['€'] ∧ r.rawNature = t.nature := by
  intro i ts
  induction ts generalizing i with
  | nil => intro l t d _ ht; cases ht
  | cons u ts ih =>
    intro l t d hok ht hdb
    unfold processGo at hok
    cases hu : u.debit with
    | none => rw [hu] at hok; exact Except.noConfusion hok
    | some du =>
      rw [hu] at hok
      cases hrec : processGo (i + 1) ts with
      | error e => rw [hrec] at hok; exact Except.noConfusion hok
      | ok lrec =>
        rw [hrec] at hok
        injection hok with hok
        subst hok
        rcases List.mem_cons.mp ht with rfl | ht2
        · rw [hu] at hdb
          injection hdb with hdb
          subst hdb
          exact ⟨mkExpense i t du, List.mem_cons_self _ _, rfl, rfl⟩
        · obtain ⟨r, hr, hprop⟩ := ih (i + 1) lrec t d hrec ht2 hdb
          exact ⟨r, List.mem_cons_of_mem _ hr, hprop⟩

/-- Claim C2, witness: the amended statement applied to the scenario-1
transaction. -/
theorem C2_witness :
    ∃ r ∈ [mkExpense 0 scenario1Tx1 (strL ("2 000,00"))],
      r.amountWithTaxes = removeWs (strL ("2 000,00")) ++ ['€'] ∧
      r.rawNature = scenario1Tx1.nature :=
  C2_amount_renormalized 0 [scenario1Tx1] [mkExpense 0 scenario1Tx1 (strL ("2 000,00"))]
    scenario1Tx1 (strL ("2 000,00")) rfl (by decide) (by decide)

/-- Claim C4, confirmed: every transaction returned by
`parseTransactions` carries a populated (non-empty) debit and an absent
credit; a candidate the classifier marks CREDIT is built with an empty
debit column (regex phase) and a line-parsed transaction that reaches the
output with a debit was necessarily classified DEBIT — so no returned
record originates from a line that matched a CREDIT keyword. -/
theorem C4_debit_only_output :
    (∀ (text : Str) (t : Tx), t ∈ parseTransactions text →
      (∃ s, t.debit = some s ∧ s ≠ []) ∧ t.credit = none) ∧
    (∀ m : RawMatch, isDebitTransaction m.full m.nature = false →
      (mkTx m).debit = none ∧ (mkTx m).credit = some m.amount) ∧
    (∀ (line : Str) (tx : Tx), parseTransactionLine line = some tx →
      tx.debit ≠ none → isDebitTransaction line tx.nature = true) := by
  refine ⟨parseTransactions_members, ?_, ?_⟩
  · intro m hm
    unfold mkTx
    rw [hm]
    simp
  · exact fun line tx h hd => parseTransactionLine_debit_classified h hd

/-- Claim C4, witness: the invariant instantiated on the first
transaction the scenario-1 line produces. -/
theorem C4_witness :
    (∃ s, scenario1Tx1.debit = some s ∧ s ≠ []) ∧ scenario1Tx1.credit = none :=
  C4_debit_only_output.1 scenario1 scenario1Tx1 (by decide)

/-- Claim C7, counterexample: on the scenario-1 input line the pipeline
produces TWO expense records (the single-date fallback pattern yields a
near-duplicate that survives deduplication), their movement type is
`other` (the description `VIR INSTANTANE EMIS` does not contain the
substring `VIREMENT`), and their amount string is the renormalized
`2000,00€` — contradicting the claimed single record with movement
TRANSFER and amount `2 000,00`. -/
theorem C7_counterexample :
    Except.map List.length (pipelineE scenario1) = .ok 2 ∧
    Except.map (List.map Expense.typeOfMovement) (pipelineE scenario1) =
      .ok [strL ("other"), strL ("other")] ∧
    Except.map (List.map Expense.amountWithTaxes) (pipelineE scenario1) =
      .ok [strL ("2000,00€"), strL ("2000,00€")] ∧
    strL ("other") ≠ strL ("transfer") ∧ strL ("2000,00€") ≠ strL ("2 000,00") := by
  exact ⟨by rfl, by rfl, by rfl, by decide, by decide⟩

/-- Claim C7, amended: on the scenario-1 line the pipeline produces
exactly two expense records, both dated 02/01/2025 with counterparty
`M. JORGE GOENAGA PEREZ`, amount string `2000,00€`, category
`MASSE SALARIALE` with confidence `medium`, movement type `other` and
frequency `unknown`; the second record's raw description is prefixed by
the value date re-read by the single-date fallback pattern. -/
theorem C7_scenario1_actual :
    parseTransactions scenario1 = [scenario1Tx1, scenario1Tx2] ∧
    pipelineE scenario1 = .ok [scenario1Rec1, scenario1Rec2] := by
  exact ⟨by decide, by rfl⟩

/-- Claim C9, confirmed: the core pipeline is total — for every input
string it returns a record list and never reaches the one modelled
failure (the `TypeError` of calling `.replace` on a `null` debit); the
empty string yields the empty list, and any text with no `DD/MM/YYYY`
date occurrence (no recognizable transaction pattern) yields the empty
list as well. -/
theorem C9_total_pipeline :
    (∀ text : Str, ∃ l, pipelineE text = .ok l) ∧
    pipelineE [] = .ok [] ∧
    (∀ text : Str, dateTest text = false →
      parseTransactions text = [] ∧ pipelineE text = .ok []) := by
  refine ⟨pipelineE_total, by rfl, ?_⟩
  intro text h
  have hp := parseTransactions_noDate h
  refine ⟨hp, ?_⟩
  unfold pipelineE processTransactionsE
  rw [hp]
  rfl

/-- Claim C9, witness: a dateless text parses to the empty list and the
pipeline returns an empty result rather than failing. -/
theorem C9_witness :
    parseTransactions (strL ("hello")) = [] ∧ pipelineE (strL ("hello")) = .ok [] :=
  C9_total_pipeline.2.2 (strL ("hello")) (by decide)

end PdfExtractor
